import Mathlib

/-!
Shallow embedding of `libavformat/unix_y.c` (the `unix-y` URL protocol:
a session-oriented byte-stream client over local stream sockets).

External collaborators (`send`, `recv`, `ff_socket`, `ff_listen_connect`,
`strtoll`) are modelled as oracles supplied through environment structures:
each call site consumes the next oracle result.  Machine integers
(`int`, `int64_t`) are modelled as `Int`; error returns follow FFmpeg's
convention of negative `AVERROR` codes, lifted into `Except Int` so that
"the function took an error-return path" is visible in the type.
`errno` is threaded explicitly where the source consults it.
-/

namespace UnixY

/-! ### Error codes and whence constants (Linux / FFmpeg values) -/

def EPERM : Nat := 1
def EINVAL : Nat := 22
def ERANGE : Nat := 34
def ENETDOWN : Nat := 100

/-- `AVERROR(e)`: POSIX error code negated (FFmpeg on POSIX). -/
def AVERROR (e : Nat) : Int := -(e : Int)

/-- `AVERROR_EOF = FFERRTAG('E','O','F',' ')`. -/
def AVERROR_EOF : Int := -541478725

deriving instance DecidableEq for Except

def SEEK_SET : Int := 0
def SEEK_CUR : Int := 1
def SEEK_END : Int := 2
def AVSEEK_SIZE : Int := 65536

/-! ### Oracle results for the socket primitives -/

/-- Result of one `send` call: `sent n` models a return of `n ≥ 0`
(`n = 0` means the peer closed the stream), `fail e` models a return of
`-1` with `errno = e`. -/
inductive SendRes where
  | sent (n : Nat)
  | fail (e : Nat)
deriving DecidableEq, Repr

/-- Result of one 1-byte `recv` call on the control connection:
a byte, an orderly close (`recv` returned `0`), or a failure
(`recv` returned `-1` with `errno = e`, so `ff_neterrno() = AVERROR(e)`). -/
inductive RecvRes where
  | byte (c : Char)
  | eof
  | fail (e : Nat)
deriving DecidableEq, Repr

/-! ### `write_str` (source lines 73–82)

```c
static int write_str(int fd, char * buf, int len) {
    int write = 0;
    while (write < len) {
        int ret = send(fd, &buf[write], len - write, MSG_NOSIGNAL);
        if (ret == 0) return AVERROR(ENETDOWN); // stream closed
        if (ret < 0) return AVERROR(errno);
        write += ret;
    }
    return 0;
}
```

The oracle stream `send` is shifted by one on each loop iteration; the
remaining byte count `len - write` decreases by at least one on every
iteration that continues (`Nat` subtraction mirrors the C loop, which
exits as soon as `write ≥ len`).  The structural `fuel` argument bounds
the number of iterations; `write_str` starts it at `len`, which can
never run out before `remaining = 0` because every continuing iteration
consumes at least one byte — the fuel-exhausted branch returns the same
value the loop returns on exit.  Returns the C result lifted to `Except`
together with the final `errno`. -/

def write_str_go (send : Nat → SendRes) (fuel remaining errno : Nat) :
    (Except Int Unit) × Nat :=
  match fuel with
  | 0 => (.ok (), errno)
  | f+1 =>
    if remaining = 0 then (.ok (), errno)
    else
      match send 0 with
      | .sent 0 => (.error (AVERROR ENETDOWN), errno)
      | .sent (n+1) => write_str_go (fun k => send (k+1)) f (remaining - (n+1)) errno
      | .fail e => (.error (AVERROR e), e)

def write_str (send : Nat → SendRes) (len : Nat) (errno : Nat) :
    (Except Int Unit) × Nat :=
  write_str_go send len len errno

/-! ### `read_str_until` (source lines 84–100)

```c
static int read_str_until(int fd, char until_char, char * out, int max) {
    char buf[1];
    int read = 0;
    while (read < max) {
        int ret = recv(fd, buf, 1, MSG_WAITALL);
        if (ret < 0) return ff_neterrno();
        if (ret < 1) return AVERROR_EOF;
        if (buf[0] == until_char) {
            out[read] = '\0';
            break;
        } else {
            out[read] = buf[0];
        }
        read++;
    }
    return read;
}
```

Modelled with `remaining = max - read` as the structural measure; the
success value is the pair (count returned, bytes stored in `out`).  When
the loop leaves because `read` reached `max`, the count equals `max` and
the buffer holds `max` bytes with no NUL terminator appended — and no
error is reported.  `ff_neterrno()` is `AVERROR(errno)`. -/

def read_str_until (recv : Nat → RecvRes) (until_char : Char) (remaining : Nat)
    (errno : Nat) : (Except Int (Nat × List Char)) × Nat :=
  match remaining with
  | 0 => (.ok (0, []), errno)
  | m+1 =>
    match recv 0 with
    | .fail e => (.error (AVERROR e), e)
    | .eof => (.error AVERROR_EOF, errno)
    | .byte c =>
      if c = until_char then (.ok (0, []), errno)
      else
        match read_str_until (fun k => recv (k+1)) until_char m errno with
        | (.ok (cnt, line), e2) => (.ok (cnt + 1, c :: line), e2)
        | (.error r, e2) => (.error r, e2)

/-! ### C-string helpers -/

/-- The character sequence a C string function sees in a buffer:
everything before the first NUL byte. -/
def cstr (l : List Char) : List Char := l.takeWhile (fun c => c ≠ '\x00')

/-- `strcmp(buf, "ok") == 0`, for a NUL-terminated buffer holding `l`. -/
def strcmp_ok (l : List Char) : Bool := cstr l = ['o', 'k']

/-- `isspace` characters skipped by `strtoll`. -/
def isSpaceC (c : Char) : Bool :=
  c = ' ' ∨ c = '\t' ∨ c = '\n' ∨ c = '\x0b' ∨ c = '\x0c' ∨ c = '\r'

def digitsToNat (ds : List Char) : Nat :=
  ds.foldl (fun acc c => acc * 10 + (c.toNat - '0'.toNat)) 0

def INT64_MAX : Int := 2 ^ 63 - 1
def INT64_MIN : Int := -(2 ^ 63)

/-- `strtoll(s, NULL, 10)`: skip leading whitespace, optional sign, then
base-10 digits.  Returns `(value, converted, ranged)`:
`converted = false` when no digits were found (the C call then returns 0),
`ranged = true` when the value was clamped to the `int64_t` range (the C
call then sets `errno = ERANGE`).  glibc does not touch `errno` on a
no-conversion input with a valid base; whether a libc sets
`errno = EINVAL` in that case is left as an environment flag at the call
site. -/
def strtoll (s : List Char) : Int × Bool × Bool :=
  let s1 := s.dropWhile isSpaceC
  let (sign, s2) : Int × List Char :=
    match s1 with
    | '-' :: t => (-1, t)
    | '+' :: t => (1, t)
    | _ => (1, s1)
  let ds := s2.takeWhile Char.isDigit
  if ds.isEmpty then (0, false, false)
  else
    let v : Int := sign * (digitsToNat ds : Int)
    if v > INT64_MAX then (INT64_MAX, true, true)
    else if v < INT64_MIN then (INT64_MIN, true, true)
    else (v, true, false)

/-! ### Context (source lines 37–50) -/

/-- `UnixYContext` (the fields the protocol logic reads and writes;
the parsed address is an opaque collaborator of the connect step). -/
structure UnixYContext where
  timeout : Int
  control_fd : Int
  cur_fd : Int
  reading_mode : Bool
  session_id : Int
  pos : Int
deriving DecidableEq, Repr

/-! ### The session-id allocator (source lines 121, 134–135)

```c
static atomic_int session_id_inc = ATOMIC_VAR_INIT(0);
...
atomic_fetch_add(&session_id_inc, 1);
int new_session_id = atomic_load(&session_id_inc);
```

Two separate atomic operations; the value returned by `fetch_add` is
discarded. -/

/-- `atomic_fetch_add(&ctr, 1)`: returns the old value and the new
counter state. -/
def atomic_fetch_add (ctr : Nat) : Nat × Nat := (ctr, ctr + 1)

/-- `atomic_load(&ctr)`: reads the current counter state. -/
def atomic_load (ctr : Nat) : Nat := ctr

/-! ### `connectSocket` (source lines 102–155) -/

/-- Oracle environment for one `connectSocket` call. -/
structure ConnectEnv where
  /-- `ff_socket(AF_UNIX, SOCK_STREAM, 0)`: a fresh fd, or a failure with
  the given `errno` (the C then returns `ff_neterrno() = AVERROR(errno)`). -/
  socket : Except Nat Int
  /-- `ff_listen_connect(...)`: `.ok` for `ret ≥ 0`, or `.error ret` with
  the negative code the C returns verbatim. -/
  connect : Except Int Unit
  /-- `send` results consumed by the handshake-line `write_str`. -/
  send : Nat → SendRes

/-- Result of `connectSocket`: the C return value (fd or negative error)
lifted to `Except`, the updated context, the updated process-wide session
counter, and the fds passed to `closesocket` on the way. -/
structure ConnOut where
  res : Except Int Int
  ctx : UnixYContext
  ctr : Nat
  closed : List Int
deriving DecidableEq, Repr

def connectSocket (env : ConnectEnv) (ctr : Nat) (s : UnixYContext) : ConnOut :=
  match env.socket with
  | .error e => ⟨.error (AVERROR e), s, ctr, []⟩
  | .ok fd =>
    match env.connect with
    | .error ret => ⟨.error ret, s, ctr, [fd]⟩
    | .ok _ =>
      if s.session_id > 0 then
        let cmd := "run_session " ++ toString s.session_id ++ "\n"
        match write_str env.send cmd.length 0 with
        | (.error ret, _) => ⟨.error ret, s, ctr, [fd]⟩
        | (.ok _, _) => ⟨.ok fd, s, ctr, []⟩
      else
        let (_, ctr1) := atomic_fetch_add ctr
        let new_session_id : Int := (atomic_load ctr1 : Nat)
        let cmd :=
          if s.reading_mode then
            "new_session read " ++ toString new_session_id ++ "\n"
          else
            "new_session write " ++ toString new_session_id ++ "\n"
        match write_str env.send cmd.length 0 with
        | (.error ret, _) => ⟨.error ret, s, ctr1, [fd]⟩
        | (.ok _, _) =>
          ⟨.ok fd, { s with session_id := new_session_id }, ctr1, []⟩

/-! ### `unix_y_read` / `unix_y_write` (source lines 194–278) -/

/-- Oracle environment for one read or write call. -/
structure IOEnv where
  /-- `send` results for the `"read <pos>\n"` / `"write <pos>\n"` command. -/
  ctrlSend : Nat → SendRes
  /-- control-connection bytes for the reply line. -/
  ctrlRecv : Nat → RecvRes
  /-- environment for the `connectSocket` call that opens the data fd. -/
  conn : ConnectEnv
  /-- the single `recv` (read) or `send` (write) on the data connection:
  `sent n` models a return of `n`, `fail e` a return of `-1` with
  `errno = e`. -/
  data : SendRes
  /-- `errno` on entry. -/
  errno0 : Nat

structure IOOut where
  res : Except Int Int
  ctx : UnixYContext
  ctr : Nat
  closed : List Int
deriving DecidableEq, Repr

/-- The `if (s->cur_fd < 0) { ... }` block that `unix_y_read`
(lines 204–227) and `unix_y_write` (lines 248–271) both contain verbatim,
differing only in the command word (`"read"` / `"write"`); the design
spec calls it `ensureDataConnection`.  Sends `"<cmd> <pos>\n"` on the
control connection, reads the reply line (cap 50), requires it to compare
equal to `"ok"` under `strcmp` (else `AVERROR(EINVAL)`), then opens the
data connection via `connectSocket` and stores its fd in `cur_fd`. -/
def ensureDataConn (cmdName : String) (env : IOEnv) (ctr : Nat)
    (s : UnixYContext) : (Except Int Unit) × UnixYContext × Nat × List Int :=
  if s.cur_fd < 0 then
    match write_str env.ctrlSend
        (cmdName ++ " " ++ toString s.pos ++ "\n").length env.errno0 with
    | (.error ret, _) => (.error ret, s, ctr, [])
    | (.ok _, e1) =>
      match read_str_until env.ctrlRecv '\n' 50 e1 with
      | (.error ret, _) => (.error ret, s, ctr, [])
      | (.ok (_, line), _) =>
        if !strcmp_ok line then (.error (AVERROR EINVAL), s, ctr, [])
        else
          match connectSocket env.conn ctr s with
          | ⟨.error ret, s2, ctr2, cl⟩ => (.error ret, s2, ctr2, cl)
          | ⟨.ok fd, s2, ctr2, cl⟩ =>
            (.ok (), { s2 with cur_fd := fd }, ctr2, cl)
  else (.ok (), s, ctr, [])

def unix_y_read (env : IOEnv) (ctr : Nat) (s : UnixYContext) : IOOut :=
  if !s.reading_mode then ⟨.error (AVERROR EPERM), s, ctr, []⟩
  else
    match ensureDataConn "read" env ctr s with
    | (.error ret, s2, ctr2, cl) => ⟨.error ret, s2, ctr2, cl⟩
    | (.ok _, s2, ctr2, cl) =>
      match env.data with
      | .sent 0 => ⟨.error AVERROR_EOF, s2, ctr2, cl⟩
      | .sent (n+1) =>
        ⟨.ok (n + 1 : Nat), { s2 with pos := s2.pos + (n + 1 : Nat) }, ctr2, cl⟩
      | .fail e => ⟨.error (AVERROR e), s2, ctr2, cl⟩

def unix_y_write (env : IOEnv) (ctr : Nat) (s : UnixYContext) : IOOut :=
  if s.reading_mode then ⟨.error (AVERROR EPERM), s, ctr, []⟩
  else
    match ensureDataConn "write" env ctr s with
    | (.error ret, s2, ctr2, cl) => ⟨.error ret, s2, ctr2, cl⟩
    | (.ok _, s2, ctr2, cl) =>
      match env.data with
      | .sent n =>
        ⟨.ok (n : Nat), { s2 with pos := s2.pos + (n : Nat) }, ctr2, cl⟩
      | .fail e => ⟨.error (AVERROR e), s2, ctr2, cl⟩

/-! ### `unix_y_seek` (source lines 293–353)

Notable source details embedded faithfully:
  * line 310: on a reply-read failure the function returns
    `AVERROR(errno)` — not the reader's own return value — so a peer
    close during the stat reply surfaces as `AVERROR` of the *stale*
    `errno`, not as `AVERROR_EOF`;
  * lines 315–319: `stat = strtoll(rep_buf, NULL, 10); if (errno == EINVAL) ...`
    with `errno` never cleared beforehand;
  * lines 335–337: `if (stat < 0) { AVERROR(EINVAL); }` — the error value
    is computed and discarded (no `return`), so execution falls through to
    `newPos = stat + pos`. -/

structure SeekEnv where
  /-- `send` results for the `"stat\n"` command. -/
  ctrlSend : Nat → SendRes
  /-- control-connection bytes for the stat reply line. -/
  ctrlRecv : Nat → RecvRes
  /-- whether this libc's `strtoll` sets `errno = EINVAL` when no
  conversion could be performed (glibc does not; POSIX leaves it
  implementation-defined). -/
  noConvSetsEinval : Bool
  /-- `errno` on entry to the call. -/
  errno0 : Nat

structure SeekOut where
  res : Except Int Int
  ctx : UnixYContext
  closed : List Int
deriving DecidableEq, Repr

def unix_y_seek (env : SeekEnv) (s : UnixYContext) (pos : Int) (whence : Int) :
    SeekOut :=
  -- int64_t stat = -1; filled in by the stat exchange when it runs
  let statStep : Except Int Int :=
    if whence = AVSEEK_SIZE ∨ whence = SEEK_END then
      match write_str env.ctrlSend "stat\n".length env.errno0 with
      | (.error ret, _) => .error ret
      | (.ok _, e1) =>
        match read_str_until env.ctrlRecv '\n' 50 e1 with
        | (.error _, e2) => .error (AVERROR e2)   -- line 310: AVERROR(errno)
        | (.ok (_, line), e2) =>
          let (v, converted, ranged) := strtoll (cstr line)
          let e3 := if ranged then ERANGE
                    else if !converted ∧ env.noConvSetsEinval then EINVAL
                    else e2
          if e3 = EINVAL then .error (AVERROR EINVAL)
          else .ok v
    else .ok (-1)
  match statStep with
  | .error ret => ⟨.error ret, s, []⟩
  | .ok stat =>
    if whence = AVSEEK_SIZE then ⟨.ok stat, s, []⟩
    else
      let newPosStep : Except Int Int :=
        if whence = SEEK_SET then .ok pos
        else if whence = SEEK_CUR then .ok (s.pos + pos)
        else if whence = SEEK_END then
          -- source bug: `if (stat < 0) { AVERROR(EINVAL); }` lacks a
          -- `return`, so the negative-stat case falls through
          .ok (stat + pos)
        else .error (AVERROR EINVAL)
      match newPosStep with
      | .error ret => ⟨.error ret, s, []⟩
      | .ok newPos =>
        if s.cur_fd ≥ 0 ∧ newPos ≠ s.pos then
          ⟨.ok newPos, { s with cur_fd := -1, pos := newPos }, [s.cur_fd]⟩
        else
          ⟨.ok newPos, { s with pos := newPos }, []⟩

/-! ### Interleaving model of the session-id allocation

`connectSocket` mints a fresh id with two separate atomic operations
(`atomic_fetch_add(&session_id_inc, 1)` whose return value is discarded,
then `atomic_load(&session_id_inc)`).  Under concurrent opens the two
operations of different threads can interleave.  Each thread is a
two-instruction program over the shared counter; `pc 0` = about to
`fetch_add`, `pc 1` = about to `load`, `pc 2` = done, with the loaded id
in `sid`. -/

structure AllocThread where
  pc : Nat
  sid : Nat
deriving DecidableEq, Repr

/-- One step of a thread running the allocation sequence of
`connectSocket` (the same `atomic_fetch_add` / `atomic_load` calls). -/
def allocStep (ctr : Nat) (t : AllocThread) : Nat × AllocThread :=
  match t.pc with
  | 0 => ((atomic_fetch_add ctr).2, { t with pc := 1 })
  | 1 => (ctr, { pc := 2, sid := atomic_load ctr })
  | _ => (ctr, t)

/-- Run two threads `a`, `b` under a schedule: `true` = thread `a` takes
its next step, `false` = thread `b` does. -/
def runSched (sched : List Bool) (ctr : Nat) (a b : AllocThread) :
    Nat × AllocThread × AllocThread :=
  match sched with
  | [] => (ctr, a, b)
  | true :: rest =>
    let (c1, a1) := allocStep ctr a
    runSched rest c1 a1 b
  | false :: rest =>
    let (c1, b1) := allocStep ctr b
    runSched rest c1 a b1

end UnixY

/-!
## Verification

Helper lemmas first, then one theorem per claim (with witnesses and
counterexamples where required).
-/

namespace UnixY

/-- Bytes accepted by one `send` result (0 for a failure). -/
def sentBytes : SendRes → Nat
  | .sent n => n
  | .fail _ => 0

/-- Total bytes accepted by the first `j` oracle entries. -/
def sentSum (send : Nat → SendRes) : Nat → Nat
  | 0 => 0
  | j+1 => sentBytes (send 0) + sentSum (fun k => send (k+1)) j

theorem write_str_go_complete (j : Nat) :
    ∀ (send : Nat → SendRes) (fuel remaining e0 : Nat),
      remaining ≤ fuel →
      (∀ i, i < j → ∃ n, send i = .sent (n+1)) →
      remaining ≤ sentSum send j →
      (write_str_go send fuel remaining e0).1 = .ok () := by
  induction j with
  | zero =>
    intro send fuel remaining e0 _ _ hsum
    have h0 : remaining = 0 := by simpa [sentSum] using hsum
    subst h0
    cases fuel <;> simp [write_str_go]
  | succ j ih =>
    intro send fuel remaining e0 hle hg hsum
    by_cases h0 : remaining = 0
    · subst h0; cases fuel <;> simp [write_str_go]
    · obtain ⟨n, hn⟩ := hg 0 (Nat.succ_pos j)
      have hsum' : sentSum send (j+1)
          = (n+1) + sentSum (fun k => send (k+1)) j := by
        simp [sentSum, hn, sentBytes]
      cases fuel with
      | zero => omega
      | succ f =>
        rw [write_str_go]
        simp only [h0, if_false, hn]
        exact ih (fun k => send (k+1)) f (remaining - (n+1)) e0 (by omega)
          (fun i hi => hg (i+1) (by omega)) (by omega)

theorem write_str_go_zero (j : Nat) :
    ∀ (send : Nat → SendRes) (fuel remaining e0 : Nat),
      remaining ≤ fuel →
      (∀ i, i < j → ∃ n, send i = .sent (n+1)) →
      sentSum send j < remaining →
      send j = .sent 0 →
      write_str_go send fuel remaining e0 = (.error (AVERROR ENETDOWN), e0) := by
  induction j with
  | zero =>
    intro send fuel remaining e0 hle _ hsum hz
    have h0 : remaining ≠ 0 := by simp [sentSum] at hsum; omega
    cases fuel with
    | zero => omega
    | succ f => rw [write_str_go]; simp [h0, hz]
  | succ j ih =>
    intro send fuel remaining e0 hle hg hsum hz
    obtain ⟨n, hn⟩ := hg 0 (Nat.succ_pos j)
    have hsum' : sentSum send (j+1)
        = (n+1) + sentSum (fun k => send (k+1)) j := by
      simp [sentSum, hn, sentBytes]
    have h0 : remaining ≠ 0 := by omega
    cases fuel with
    | zero => omega
    | succ f =>
      rw [write_str_go]
      simp only [h0, if_false, hn]
      exact ih (fun k => send (k+1)) f (remaining - (n+1)) e0 (by omega)
        (fun i hi => hg (i+1) (by omega)) (by omega) hz

theorem write_str_go_fail (j : Nat) :
    ∀ (send : Nat → SendRes) (fuel remaining e0 e : Nat),
      remaining ≤ fuel →
      (∀ i, i < j → ∃ n, send i = .sent (n+1)) →
      sentSum send j < remaining →
      send j = .fail e →
      write_str_go send fuel remaining e0 = (.error (AVERROR e), e) := by
  induction j with
  | zero =>
    intro send fuel remaining e0 e hle _ hsum hf
    have h0 : remaining ≠ 0 := by simp [sentSum] at hsum; omega
    cases fuel with
    | zero => omega
    | succ f => rw [write_str_go]; simp [h0, hf]
  | succ j ih =>
    intro send fuel remaining e0 e hle hg hsum hf
    obtain ⟨n, hn⟩ := hg 0 (Nat.succ_pos j)
    have hsum' : sentSum send (j+1)
        = (n+1) + sentSum (fun k => send (k+1)) j := by
      simp [sentSum, hn, sentBytes]
    have h0 : remaining ≠ 0 := by omega
    cases fuel with
    | zero => omega
    | succ f =>
      rw [write_str_go]
      simp only [h0, if_false, hn]
      exact ih (fun k => send (k+1)) f (remaining - (n+1)) e0 e (by omega)
        (fun i hi => hg (i+1) (by omega)) (by omega) hf

/-- C8: the partial-write loop of `write_str` keeps sending until all
`len` bytes of the line have been sent or a send error occurs: if the
first `j` sends each accept at least one byte and together cover `len`,
the loop reports success; if, with less than `len` bytes covered, a send
returns zero, the loop reports the closed-stream error
`AVERROR(ENETDOWN)` (a fixed code distinct from the generic
`AVERROR(errno)` passthrough); and if a send fails with `errno = e`, the
loop reports the underlying socket error `AVERROR(e)`. -/
theorem write_str_partial_send_contract (send : Nat → SendRes)
    (len e0 j e : Nat) :
    ((∀ i, i < j → ∃ n, send i = .sent (n+1)) → len ≤ sentSum send j →
      (write_str send len e0).1 = .ok ())
  ∧ ((∀ i, i < j → ∃ n, send i = .sent (n+1)) → sentSum send j < len →
      send j = .sent 0 →
      write_str send len e0 = (.error (AVERROR ENETDOWN), e0))
  ∧ ((∀ i, i < j → ∃ n, send i = .sent (n+1)) → sentSum send j < len →
      send j = .fail e →
      write_str send len e0 = (.error (AVERROR e), e)) :=
  ⟨fun hg hs => write_str_go_complete j send len len e0 le_rfl hg hs,
   fun hg hs hz => write_str_go_zero j send len len e0 le_rfl hg hs hz,
   fun hg hs hf => write_str_go_fail j send len len e0 e le_rfl hg hs hf⟩

/-- Oracle that accepts two bytes per `send` call. -/
def sendTwo : Nat → SendRes := fun _ => .sent 2

/-- Oracle: three sends of two bytes, then a zero-length send. -/
def sendThenZero : Nat → SendRes := fun i => if i < 3 then .sent 2 else .sent 0

/-- Oracle: three sends of two bytes, then a failure with `errno = 32`. -/
def sendThenFail : Nat → SendRes := fun i => if i < 3 then .sent 2 else .fail 32

theorem write_str_partial_send_contract_witness :
    (write_str sendTwo 6 7).1 = .ok ()
  ∧ write_str sendThenZero 9 7 = (.error (AVERROR ENETDOWN), 7)
  ∧ write_str sendThenFail 9 7 = (.error (AVERROR 32), 32) :=
  ⟨(write_str_partial_send_contract sendTwo 6 7 3 0).1
      (fun i _ => ⟨1, rfl⟩) (by decide),
   (write_str_partial_send_contract sendThenZero 9 7 3 0).2.1
      (fun i hi => ⟨1, by simp [sendThenZero, hi]⟩) (by decide) (by decide),
   (write_str_partial_send_contract sendThenFail 9 7 3 32).2.2
      (fun i hi => ⟨1, by simp [sendThenFail, hi]⟩) (by decide) (by decide)⟩

end UnixY

namespace UnixY

/-- The byte delivered by the `i`-th one-byte `recv` (NUL if that call
did not deliver a byte). -/
def recvByteAt (recv : Nat → RecvRes) (i : Nat) : Char :=
  match recv i with
  | .byte c => c
  | _ => '\x00'

/-- The bytes delivered by the first `k` one-byte `recv` calls. -/
def recvLine (recv : Nat → RecvRes) (k : Nat) : List Char :=
  (List.range k).map (recvByteAt recv)

theorem recvLine_succ (recv : Nat → RecvRes) (k : Nat) :
    recvLine recv (k+1)
      = recvByteAt recv 0 :: recvLine (fun i => recv (i+1)) k := by
  simp only [recvLine, List.range_succ_eq_map, List.map_cons, List.map_map]
  rfl

theorem read_str_until_term (k : Nat) :
    ∀ (recv : Nat → RecvRes) (u : Char) (max e0 : Nat),
      k < max →
      (∀ i, i < k → ∃ c, recv i = .byte c ∧ c ≠ u) →
      recv k = .byte u →
      read_str_until recv u max e0 = (.ok (k, recvLine recv k), e0) := by
  induction k with
  | zero =>
    intro recv u max e0 hk _ hu
    cases max with
    | zero => omega
    | succ m => rw [read_str_until]; simp [hu, recvLine]
  | succ k ih =>
    intro recv u max e0 hk hclean hu
    obtain ⟨c, hc, hcu⟩ := hclean 0 (Nat.succ_pos k)
    cases max with
    | zero => omega
    | succ m =>
      rw [read_str_until]
      simp only [hc, hcu, if_false]
      rw [ih (fun i => recv (i+1)) u m e0 (by omega)
            (fun i hi => hclean (i+1) (by omega)) hu]
      simp [recvLine_succ, recvByteAt, hc]

theorem read_str_until_eof (k : Nat) :
    ∀ (recv : Nat → RecvRes) (u : Char) (max e0 : Nat),
      k < max →
      (∀ i, i < k → ∃ c, recv i = .byte c ∧ c ≠ u) →
      recv k = .eof →
      read_str_until recv u max e0 = (.error AVERROR_EOF, e0) := by
  induction k with
  | zero =>
    intro recv u max e0 hk _ hu
    cases max with
    | zero => omega
    | succ m => rw [read_str_until]; simp [hu]
  | succ k ih =>
    intro recv u max e0 hk hclean hu
    obtain ⟨c, hc, hcu⟩ := hclean 0 (Nat.succ_pos k)
    cases max with
    | zero => omega
    | succ m =>
      rw [read_str_until]
      simp only [hc, hcu, if_false]
      rw [ih (fun i => recv (i+1)) u m e0 (by omega)
            (fun i hi => hclean (i+1) (by omega)) hu]

theorem read_str_until_cap (max : Nat) :
    ∀ (recv : Nat → RecvRes) (u : Char) (e0 : Nat),
      (∀ i, i < max → ∃ c, recv i = .byte c ∧ c ≠ u) →
      read_str_until recv u max e0 = (.ok (max, recvLine recv max), e0) := by
  induction max with
  | zero =>
    intro recv u e0 _
    simp [read_str_until, recvLine]
  | succ m ih =>
    intro recv u e0 hclean
    obtain ⟨c, hc, hcu⟩ := hclean 0 (Nat.succ_pos m)
    rw [read_str_until]
    simp only [hc, hcu, if_false]
    rw [ih (fun i => recv (i+1)) u e0 (fun i hi => hclean (i+1) (by omega))]
    simp [recvLine_succ, recvByteAt, hc]

end UnixY

namespace UnixY

/-- C2 (amended): every reply read on the control connection goes
through `read_str_until`, which consumes one byte at a time and
terminates at a `'\n'` (returning the byte count and the bytes before
the terminator); if the peer closes before the terminator the read
fails with `AVERROR_EOF` (the spec's UnexpectedEof); if 50 bytes arrive
without a `'\n'` the loop stops at the cap and returns count 50 with the
truncated reply and **no** error — the code has no ReadOverflow error
(the truncated reply merely fails the subsequent exact-`"ok"`
comparison in `unix_y_read`/`unix_y_write`). -/
theorem read_reply_framing (recv : Nat → RecvRes) (e0 k : Nat) :
    (k < 50 → (∀ i, i < k → ∃ c, recv i = .byte c ∧ c ≠ '\n') →
      recv k = .byte '\n' →
      read_str_until recv '\n' 50 e0 = (.ok (k, recvLine recv k), e0))
  ∧ (k < 50 → (∀ i, i < k → ∃ c, recv i = .byte c ∧ c ≠ '\n') →
      recv k = .eof →
      read_str_until recv '\n' 50 e0 = (.error AVERROR_EOF, e0))
  ∧ ((∀ i, i < 50 → ∃ c, recv i = .byte c ∧ c ≠ '\n') →
      read_str_until recv '\n' 50 e0 = (.ok (50, recvLine recv 50), e0)) :=
  ⟨fun hk hclean hu => read_str_until_term k recv '\n' 50 e0 hk hclean hu,
   fun hk hclean hu => read_str_until_eof k recv '\n' 50 e0 hk hclean hu,
   fun hclean => read_str_until_cap 50 recv '\n' e0 hclean⟩

/-- Control-connection oracle delivering the bytes of `l`, then EOF. -/
def recvOfList (l : List Char) : Nat → RecvRes := fun i =>
  if h : i < l.length then .byte (l.get ⟨i, h⟩) else .eof

theorem read_reply_framing_witness :
    read_str_until (recvOfList ['o', 'k', '\n']) '\n' 50 3
      = (.ok (2, ['o', 'k']), 3)
  ∧ read_str_until (recvOfList ['o', 'k']) '\n' 50 3
      = (.error AVERROR_EOF, 3)
  ∧ read_str_until (fun _ => .byte 'a') '\n' 50 3
      = (.ok (50, List.replicate 50 'a'), 3) := by
  refine ⟨?_, ?_, ?_⟩
  · have h := (read_reply_framing (recvOfList ['o', 'k', '\n']) 3 2).1
      (by decide)
      (fun i hi => by
        interval_cases i
        · exact ⟨'o', by decide⟩
        · exact ⟨'k', by decide⟩)
      (by decide)
    rw [h]; decide
  · exact (read_reply_framing (recvOfList ['o', 'k']) 3 2).2.1
      (by decide)
      (fun i hi => by
        interval_cases i
        · exact ⟨'o', by decide⟩
        · exact ⟨'k', by decide⟩)
      (by decide)
  · have h := (read_reply_framing (fun _ => .byte 'a') 3 0).2.2
      (fun i _ => ⟨'a', by decide⟩)
    rw [h]; decide

/-- C2 counterexample: 50 bytes arrive on the control connection with no
`'\n'`; `read_str_until` returns the count 50 as a *success* — the
original claim says this must fail with a ReadOverflow error, but no
such error exists in the code. -/
theorem read_str_until_cap_is_not_an_error :
    (read_str_until (fun _ => .byte 'a') '\n' 50 0).1
      = .ok (50, List.replicate 50 'a') := by decide

end UnixY

namespace UnixY

theorem connectSocket_pos (env : ConnectEnv) (ctr : Nat) (s : UnixYContext) :
    (connectSocket env ctr s).ctx.pos = s.pos := by
  unfold connectSocket
  split
  · rfl
  · split
    · rfl
    · split
      · dsimp only
        split <;> rfl
      · dsimp only
        split <;> rfl

/-- C3 (amended): when a session id is freshly minted (`session_id ≤ 0`)
and the send of the `new_session` line fails, `connectSocket` closes the
just-opened connection `fd` and returns the send error — but the freshly
minted id is **not** assigned to the session: the context is returned
unchanged (`session_id` is only written after a successful send), while
the process-wide counter stays advanced, so a future retry mints a new
(still unique) id. -/
theorem connectSocket_new_session_send_fail (env : ConnectEnv) (ctr : Nat)
    (s : UnixYContext) (fd r : Int) (e2 : Nat)
    (hid : ¬ s.session_id > 0)
    (hsock : env.socket = .ok fd)
    (hconn : env.connect = .ok ())
    (hsend : write_str env.send
        (if s.reading_mode then
            "new_session read " ++ toString ((ctr + 1 : Nat) : Int) ++ "\n"
          else
            "new_session write " ++ toString ((ctr + 1 : Nat) : Int) ++ "\n").length
        0 = (.error r, e2)) :
    connectSocket env ctr s = ⟨.error r, s, ctr + 1, [fd]⟩ := by
  unfold connectSocket
  rw [hsock, hconn]
  simp only [hid, if_false, atomic_fetch_add, atomic_load]
  rw [hsend]

/-- Environment for the concrete C3 run: the connect succeeds (fd 5) and
every handshake send fails with `errno = 32` (EPIPE). -/
def envC3 : ConnectEnv := ⟨.ok 5, .ok (), fun _ => .fail 32⟩

/-- A freshly opened write-mode context: `session_id = -1` (unset). -/
def ctxC3 : UnixYContext := ⟨3000, 4, -1, false, -1, 0⟩

theorem connectSocket_new_session_send_fail_witness :
    connectSocket envC3 0 ctxC3 = ⟨.error (-32), ctxC3, 1, [5]⟩ :=
  connectSocket_new_session_send_fail envC3 0 ctxC3 5 (-32) 32
    (by decide) (by decide) (by decide) (by decide)

/-- C3 counterexample: with `session_id` unset, a failing `new_session`
send makes `connectSocket` advance the counter to 1 (the id is minted)
yet leave `session_id = -1` in the returned context: the freshly minted
id does **not** "remain assigned to the session", contradicting the
claim.  The connection is closed and the error returned as claimed. -/
theorem connectSocket_minted_id_not_retained :
    (connectSocket envC3 0 ctxC3).ctr = 1
  ∧ (connectSocket envC3 0 ctxC3).ctx.session_id = -1
  ∧ (connectSocket envC3 0 ctxC3).ctx.session_id ≠ 1
  ∧ (connectSocket envC3 0 ctxC3).res = .error (-32)
  ∧ (connectSocket envC3 0 ctxC3).closed = [5] := by decide

/-- C9: the allocation in `connectSocket` is `atomic_fetch_add` followed
by a separate `atomic_load` (the value returned by `fetch_add` is
discarded).  Under the interleaving A.fetch_add, B.fetch_add, A.load,
B.load (schedule `[true, false, true, false]` from counter 0), both
threads complete the allocation (`pc = 2`) and both load the **same**
session id 2 — two streams opened concurrently can receive equal
"freshly-minted" ids, contradicting the claimed uniqueness that a single
atomic increment would provide. -/
theorem session_alloc_race :
    (runSched [true, false, true, false] 0 ⟨0, 0⟩ ⟨0, 0⟩).2.1.pc = 2
  ∧ (runSched [true, false, true, false] 0 ⟨0, 0⟩ ⟨0, 0⟩).2.2.pc = 2
  ∧ (runSched [true, false, true, false] 0 ⟨0, 0⟩ ⟨0, 0⟩).2.1.sid = 2
  ∧ (runSched [true, false, true, false] 0 ⟨0, 0⟩ ⟨0, 0⟩).2.2.sid = 2 := by
  decide

end UnixY

namespace UnixY

/-- Oracle that accepts one byte per `send` call. -/
def sendOne : Nat → SendRes := fun _ => .sent 1

/-- A read-mode stream at `pos = 7` with an open data connection (fd 9). -/
def ctxC6 : UnixYContext := ⟨3000, 4, 9, true, 1, 7⟩

/-- Stat exchange succeeds and the server reports size 200. -/
def envStatOk : SeekEnv := ⟨sendOne, recvOfList ['2', '0', '0', '\n'], false, 0⟩

/-- Stat exchange succeeds but the server reports `-1`. -/
def envStatNeg : SeekEnv := ⟨sendOne, recvOfList ['-', '1', '\n'], false, 0⟩

/-- Stat exchange succeeds but the reply `"abc"` is not numeric;
glibc `strtoll` leaves `errno` untouched (flag `false`), `errno = 0`
on entry. -/
def envStatAbc : SeekEnv := ⟨sendOne, recvOfList ['a', 'b', 'c', '\n'], false, 0⟩

/-- C1: evaluation of `unix_y_seek` with `whence = SEEK_END` after the
stat exchange returned `-1`.  The source's guard
`if (stat < 0) { AVERROR(EINVAL); }` (lines 335–337) computes the error
value but lacks a `return`, so the call **succeeds** with
`newPos = stat + pos = -1`, closes the open data connection and sets
`pos = -1` — instead of failing with `AVERROR(EINVAL)` and leaving the
position unchanged as the claim states. -/
theorem seek_end_negative_stat_falls_through :
    unix_y_seek envStatNeg ctxC6 0 SEEK_END
      = ⟨.ok (-1), { ctxC6 with cur_fd := -1, pos := -1 }, [9]⟩ := by decide

/-- C4: evaluation of `unix_y_seek` with `whence = AVSEEK_SIZE` when the
stat reply is the non-numeric line `"abc"`.  `strtoll` returns 0 without
setting `errno` (glibc behaviour; `errno` was 0 on entry), so the
`if (errno == EINVAL)` check at line 317 never fires and the call
returns size 0 as a success instead of the `AVERROR(EINVAL)` the claim
requires for a parse failure. -/
theorem seek_size_unparseable_reply_returns_zero :
    unix_y_seek envStatAbc ctxC6 0 AVSEEK_SIZE = ⟨.ok 0, ctxC6, []⟩ := by
  decide

/-- C7: a seek with `whence = AVSEEK_SIZE` never mutates the context
(neither `pos` nor `cur_fd`), never closes a connection, and — when the
stat exchange succeeds — returns exactly the `strtoll` value of the
reply line. -/
theorem seek_size_frame (env : SeekEnv) (s : UnixYContext) (off : Int) :
    (unix_y_seek env s off AVSEEK_SIZE).ctx = s
  ∧ (unix_y_seek env s off AVSEEK_SIZE).closed = []
  ∧ (∀ (e1 e2 k : Nat) (line : List Char) (v : Int) (conv ranged : Bool),
      write_str env.ctrlSend "stat\n".length env.errno0 = (.ok (), e1) →
      read_str_until env.ctrlRecv '\n' 50 e1 = (.ok (k, line), e2) →
      strtoll (cstr line) = (v, conv, ranged) →
      (if ranged then ERANGE
       else if !conv ∧ env.noConvSetsEinval then EINVAL else e2) ≠ EINVAL →
      (unix_y_seek env s off AVSEEK_SIZE).res = .ok v) := by
  refine ⟨?_, ?_, ?_⟩
  · unfold unix_y_seek
    dsimp only
    split
    · rfl
    · simp
  · unfold unix_y_seek
    dsimp only
    split
    · rfl
    · simp
  · intro e1 e2 k line v conv ranged hw hr hs hchk
    have hchk' : ¬((if ranged = true then ERANGE
        else if conv = false ∧ env.noConvSetsEinval = true then EINVAL
        else e2) = EINVAL) := by simpa using hchk
    simp [unix_y_seek, hw, hr, hs, hchk']

theorem seek_size_frame_witness :
    (unix_y_seek envStatOk ctxC6 0 AVSEEK_SIZE).ctx = ctxC6
  ∧ (unix_y_seek envStatOk ctxC6 0 AVSEEK_SIZE).closed = []
  ∧ (unix_y_seek envStatOk ctxC6 0 AVSEEK_SIZE).res = .ok 200 :=
  ⟨(seek_size_frame envStatOk ctxC6 0).1,
   (seek_size_frame envStatOk ctxC6 0).2.1,
   (seek_size_frame envStatOk ctxC6 0).2.2 0 0 3 ['2', '0', '0'] 200 true
     false (by decide) (by decide) (by decide) (by decide)⟩

end UnixY

namespace UnixY

/-- What a successful seek to `newPos` must look like, per the claim:
the new position is returned, `pos` is set to it, and the data
connection is closed and discarded if and only if one is open and the
new position differs from the current one. -/
def SeekSucceedsTo (env : SeekEnv) (s : UnixYContext)
    (off whence newPos : Int) : Prop :=
  (unix_y_seek env s off whence).res = .ok newPos ∧
  (unix_y_seek env s off whence).ctx.pos = newPos ∧
  (if s.cur_fd ≥ 0 ∧ newPos ≠ s.pos
   then (unix_y_seek env s off whence).ctx.cur_fd = -1 ∧
        (unix_y_seek env s off whence).closed = [s.cur_fd]
   else (unix_y_seek env s off whence).ctx.cur_fd = s.cur_fd ∧
        (unix_y_seek env s off whence).closed = [])

theorem seekSucceedsTo_of_eq (env : SeekEnv) (s : UnixYContext)
    (off whence newPos : Int)
    (h : unix_y_seek env s off whence
      = if s.cur_fd ≥ 0 ∧ newPos ≠ s.pos
        then ⟨.ok newPos, { s with cur_fd := -1, pos := newPos }, [s.cur_fd]⟩
        else ⟨.ok newPos, { s with pos := newPos }, []⟩) :
    SeekSucceedsTo env s off whence newPos := by
  unfold SeekSucceedsTo
  by_cases hc : s.cur_fd ≥ 0 ∧ newPos ≠ s.pos
  · simp [h, hc]
  · simp [h, hc]

/-- C6: a seek with `whence = SEEK_SET` succeeds with new position
`off`; with `SEEK_CUR`, with `pos + off`; with `SEEK_END` (when the stat
exchange succeeds), with `statValue + off`; in each case the data
connection is closed and discarded iff one is open and the new position
differs from the current one, `pos` is set to the new position and the
new position is returned (`SeekSucceedsTo`).  Any other whence besides
`AVSEEK_SIZE` fails with `AVERROR(EINVAL)` and changes nothing. -/
theorem seek_whence_contract (env : SeekEnv) (s : UnixYContext)
    (off whence : Int) (e1 e2 k : Nat) (line : List Char) (v : Int)
    (conv ranged : Bool) :
    SeekSucceedsTo env s off SEEK_SET off
  ∧ SeekSucceedsTo env s off SEEK_CUR (s.pos + off)
  ∧ (write_str env.ctrlSend "stat\n".length env.errno0 = (.ok (), e1) →
     read_str_until env.ctrlRecv '\n' 50 e1 = (.ok (k, line), e2) →
     strtoll (cstr line) = (v, conv, ranged) →
     (if ranged then ERANGE
      else if !conv ∧ env.noConvSetsEinval then EINVAL else e2) ≠ EINVAL →
     SeekSucceedsTo env s off SEEK_END (v + off))
  ∧ (whence ≠ SEEK_SET → whence ≠ SEEK_CUR → whence ≠ SEEK_END →
     whence ≠ AVSEEK_SIZE →
     unix_y_seek env s off whence = ⟨.error (AVERROR EINVAL), s, []⟩) := by
  refine ⟨?_, ?_, ?_, ?_⟩
  · apply seekSucceedsTo_of_eq
    simp [unix_y_seek, SEEK_SET, SEEK_CUR, SEEK_END, AVSEEK_SIZE]
  · apply seekSucceedsTo_of_eq
    simp [unix_y_seek, SEEK_SET, SEEK_CUR, SEEK_END, AVSEEK_SIZE]
  · intro hw hr hs hchk
    have hchk' : ¬((if ranged = true then ERANGE
        else if conv = false ∧ env.noConvSetsEinval = true then EINVAL
        else e2) = EINVAL) := by simpa using hchk
    apply seekSucceedsTo_of_eq
    simp [unix_y_seek, SEEK_SET, SEEK_CUR, SEEK_END, AVSEEK_SIZE,
      hw, hr, hs, hchk']
  · intro h1 h2 h3 h4
    simp [unix_y_seek, h1, h2, h3, h4]

theorem seek_whence_contract_witness :
    SeekSucceedsTo envStatOk ctxC6 5 SEEK_SET 5
  ∧ SeekSucceedsTo envStatOk ctxC6 (-3) SEEK_CUR (ctxC6.pos + (-3))
  ∧ SeekSucceedsTo envStatOk ctxC6 3 SEEK_END (200 + 3)
  ∧ unix_y_seek envStatOk ctxC6 0 3 = ⟨.error (AVERROR EINVAL), ctxC6, []⟩ :=
  ⟨(seek_whence_contract envStatOk ctxC6 5 0 0 0 0 [] 0 true false).1,
   (seek_whence_contract envStatOk ctxC6 (-3) 0 0 0 0 [] 0 true false).2.1,
   (seek_whence_contract envStatOk ctxC6 3 0 0 0 3 ['2', '0', '0'] 200 true
      false).2.2.1 (by decide) (by decide) (by decide) (by decide),
   (seek_whence_contract envStatOk ctxC6 0 3 0 0 0 [] 0 true false).2.2.2
      (by decide) (by decide) (by decide) (by decide)⟩

end UnixY

namespace UnixY

/-- C5 (amended): when a read (resp. write) call must establish the data
connection (`cur_fd < 0`), the reply line is accepted or rejected by
`strcmp`, which compares only up to the first NUL byte: for every reply
line whose bytes before the first NUL differ from `"ok"`, the operation
fails with `AVERROR(EINVAL)` (the spec's ProtocolViolation) and returns
the context unchanged — in particular `pos` is unchanged and no
connection is opened or closed.  (This is strictly at the `strcmp`
level, not "any line other than exactly ok": a NUL-embedded reply such
as `"ok\0x"` is a different line yet is accepted — see the
counterexample theorem.) -/
theorem data_conn_reply_not_ok (env : IOEnv) (ctr : Nat) (s : UnixYContext)
    (k : Nat) (line : List Char) (e1 e2 : Nat)
    (hfd : s.cur_fd < 0)
    (hline : cstr line ≠ ['o', 'k']) :
    (s.reading_mode = true →
     write_str env.ctrlSend ("read" ++ " " ++ toString s.pos ++ "\n").length
        env.errno0 = (.ok (), e1) →
     read_str_until env.ctrlRecv '\n' 50 e1 = (.ok (k, line), e2) →
     unix_y_read env ctr s = ⟨.error (AVERROR EINVAL), s, ctr, []⟩)
  ∧ (s.reading_mode = false →
     write_str env.ctrlSend ("write" ++ " " ++ toString s.pos ++ "\n").length
        env.errno0 = (.ok (), e1) →
     read_str_until env.ctrlRecv '\n' 50 e1 = (.ok (k, line), e2) →
     unix_y_write env ctr s = ⟨.error (AVERROR EINVAL), s, ctr, []⟩) := by
  have hok : strcmp_ok line = false := by
    simp [strcmp_ok, hline]
  constructor
  · intro hmode hw hr
    unfold unix_y_read ensureDataConn
    rw [hmode, if_pos hfd, hw]
    dsimp only
    rw [hr]
    dsimp only
    rw [hok]
    simp
  · intro hmode hw hr
    unfold unix_y_write ensureDataConn
    rw [hmode, if_pos hfd, hw]
    dsimp only
    rw [hr]
    dsimp only
    rw [hok]
    simp

/-- Data-connection negotiation environment whose connect succeeds. -/
def envConnOk : ConnectEnv := ⟨.ok 6, .ok (), sendOne⟩

/-- IO environment whose control connection replies `"no"` to the
read/write command. -/
def envIOno : IOEnv := ⟨sendOne, recvOfList ['n', 'o', '\n'], envConnOk, .sent 0, 0⟩

/-- A read-mode stream at `pos = 7` with no data connection. -/
def ctxRead : UnixYContext := ⟨3000, 4, -1, true, 1, 7⟩

/-- A write-mode stream at `pos = 7` with no data connection. -/
def ctxWrite : UnixYContext := ⟨3000, 4, -1, false, 1, 7⟩

theorem data_conn_reply_not_ok_witness :
    unix_y_read envIOno 1 ctxRead = ⟨.error (AVERROR EINVAL), ctxRead, 1, []⟩
  ∧ unix_y_write envIOno 1 ctxWrite
      = ⟨.error (AVERROR EINVAL), ctxWrite, 1, []⟩ :=
  ⟨(data_conn_reply_not_ok envIOno 1 ctxRead 2 ['n', 'o'] 0 0 (by decide)
      (by decide)).1 (by decide) (by decide) (by decide),
   (data_conn_reply_not_ok envIOno 1 ctxWrite 2 ['n', 'o'] 0 0 (by decide)
      (by decide)).2 (by decide) (by decide) (by decide)⟩

/-- IO environment whose control connection replies the NUL-embedded
line `"ok\0x"` (bytes o, k, NUL, x) to the read command; the data
connection then delivers 3 bytes. -/
def envC5nul : IOEnv :=
  ⟨sendOne, recvOfList ['o', 'k', '\x00', 'x', '\n'], envConnOk, .sent 3, 0⟩

/-- C5 counterexample: the reply `"ok\0x"` is a line other than exactly
`"ok"`, yet `strcmp(cmd_buf, "ok")` compares only up to the first NUL
and returns 0, so the operation does **not** fail with ProtocolViolation:
the read proceeds, opens the data connection (fd 6) and advances `pos`
from 7 to 10 — refuting the claim's universal "any line other than
exactly ok". -/
theorem read_accepts_nul_embedded_reply :
    (['o', 'k', '\x00', 'x'] : List Char) ≠ ['o', 'k']
  ∧ unix_y_read envC5nul 1 ctxRead
      = ⟨.ok 3, ⟨3000, 4, 6, true, 1, 10⟩, 1, []⟩ := by decide

end UnixY

namespace UnixY

theorem ensureDataConn_pos (cmd : String) (env : IOEnv) (ctr : Nat)
    (s : UnixYContext) : (ensureDataConn cmd env ctr s).2.1.pos = s.pos := by
  unfold ensureDataConn
  split
  · split
    · rfl
    · split
      · rfl
      · split
        · rfl
        · split
          all_goals
            rename_i heq
            have h := connectSocket_pos env.conn ctr s
            rw [heq] at h
            exact h
  · rfl

/-- C10: any read, write or seek call that takes an error-return path
leaves the stream position unchanged: `pos` is only advanced after a
successful `recv`/`send` on the data connection, and seek assigns the
new position only after every fallible step has succeeded. -/
theorem error_paths_preserve_pos (env : IOEnv) (env2 : SeekEnv) (ctr : Nat)
    (s : UnixYContext) (off whence r1 r2 r3 : Int) :
    ((unix_y_read env ctr s).res = .error r1 →
      (unix_y_read env ctr s).ctx.pos = s.pos)
  ∧ ((unix_y_write env ctr s).res = .error r2 →
      (unix_y_write env ctr s).ctx.pos = s.pos)
  ∧ ((unix_y_seek env2 s off whence).res = .error r3 →
      (unix_y_seek env2 s off whence).ctx.pos = s.pos) := by
  refine ⟨?_, ?_, ?_⟩
  · unfold unix_y_read
    split
    · intro _; rfl
    · split
      · rename_i heq
        intro _
        have h := ensureDataConn_pos "read" env ctr s
        rw [heq] at h
        exact h
      · rename_i s2 ctr2 cl heq
        split
        · intro _
          have h := ensureDataConn_pos "read" env ctr s
          rw [heq] at h
          exact h
        · intro hcontra; simp at hcontra
        · intro _
          have h := ensureDataConn_pos "read" env ctr s
          rw [heq] at h
          exact h
  · unfold unix_y_write
    split
    · intro _; rfl
    · split
      · rename_i heq
        intro _
        have h := ensureDataConn_pos "write" env ctr s
        rw [heq] at h
        exact h
      · rename_i s2 ctr2 cl heq
        split
        · intro hcontra; simp at hcontra
        · intro _
          have h := ensureDataConn_pos "write" env ctr s
          rw [heq] at h
          exact h
  · unfold unix_y_seek
    dsimp only
    split
    · intro _; rfl
    · split
      · intro hcontra; simp at hcontra
      · split
        · intro _; rfl
        · split
          · intro hcontra; simp at hcontra
          · intro hcontra; simp at hcontra

theorem error_paths_preserve_pos_witness :
    (unix_y_read envIOno 1 ctxWrite).ctx.pos = ctxWrite.pos
  ∧ (unix_y_write envIOno 1 ctxRead).ctx.pos = ctxRead.pos
  ∧ (unix_y_seek envStatOk ctxC6 0 3).ctx.pos = ctxC6.pos :=
  ⟨(error_paths_preserve_pos envIOno envStatOk 1 ctxWrite 0 3
      (AVERROR EPERM) 0 0).1 (by decide),
   (error_paths_preserve_pos envIOno envStatOk 1 ctxRead 0 3
      0 (AVERROR EPERM) 0).2.1 (by decide),
   (error_paths_preserve_pos envIOno envStatOk 1 ctxC6 0 3
      0 0 (AVERROR EINVAL)).2.2 (by decide)⟩

end UnixY
